import Mathlib

/-!
Verification development for the rust_sequencer crate.

Shallow embedding conventions
* f64 / f32 arithmetic on times, frequencies, durations and samples is
  idealized as exact rational arithmetic (ℚ).  The full floating-point
  classification (NaN, infinities, subnormals, zero) is modeled by the
  F64 type and is used exactly where the source depends on it: the
  values stored in a FrequencyLookupTable, whose get method classifies
  them at read time.
* Machine-integer casts are modeled explicitly: the usize → u16 cast in
  render is reduction mod 65536, the f64 → usize casts truncate toward
  zero and saturate at 0 for negative inputs.
* Rust panics (index out of bounds, remainder by zero, unimplemented!)
  are modeled by the Res.panic outcome; library errors by Res.error.
* Rust HashMaps are modeled as association lists; iteration order is
  first-insertion order (Rust's iteration order is unspecified, and all
  per-entry updates in this crate touch distinct entries).
* Rust's stable sort_by is modeled by insertion sort with the same
  comparator, which produces the identical (stable) result.
-/

/-- Model of a Rust f64 value: NaN, signed infinity, or a finite value
carried as an exact rational together with a subnormal flag.  Finite
zero is the value 0 with the flag cleared. -/
inductive F64 where
  | nan : F64
  | inf (neg : Bool) : F64
  | val (q : ℚ) (subnormal : Bool) : F64
deriving DecidableEq

/-- f64::is_normal: finite, not zero, not subnormal. -/
def F64.is_normal : F64 → Bool
  | .val q subnormal => decide (q ≠ 0) && !subnormal
  | _ => false

/-- The comparison self > &0f64 (false for NaN, true for +inf). -/
def F64.gt_zero : F64 → Bool
  | .nan => false
  | .inf neg => !neg
  | .val q _ => decide (0 < q)

/-- src/lib.rs ValidTimeFrequency::is_valid_time_frequency for f64:
(self.is_normal()) & (self > &0f64). -/
def F64.is_valid_time_frequency (v : F64) : Bool :=
  v.is_normal && v.gt_zero

/-- The rational carried by a finite f64 (junk 0 for NaN/infinities). -/
def F64.toRat : F64 → ℚ
  | .val q _ => q
  | _ => 0

/-- Idealized injection of an exact rational as a (normal-range) f64. -/
def F64.ofRat (q : ℚ) : F64 := .val q false

/-- src/error.rs SequencerError.  The PCMError variant wraps errors of the
external pcm crate; no code modeled here constructs one. -/
inductive SequencerError where
  | PCMError : SequencerError
  | NoDefaultKeyGiven : SequencerError
  | ImpossibleTimeOrFrequency (value : F64) : SequencerError
  | NoFrequencyForID (id : Nat) : SequencerError
  | NoInstrumentForID (id : Nat) : SequencerError
  | NoKeyForID (id : Nat) : SequencerError
deriving DecidableEq

/-- Outcome of running a fallible piece of the crate: a value, a
SequencerError returned to the caller, or a Rust panic. -/
inductive Res (α : Type) where
  | ok : α → Res α
  | error : SequencerError → Res α
  | panic : Res α
deriving DecidableEq

/-- Model of the pcm crate's Sample enum: this crate only ever constructs
and reads the Float variant (f32, idealized as ℚ); every other variant is
collapsed into one unsupported marker (hitting it in mixing or generation
is an unimplemented! panic in the source). -/
inductive Sample where
  | Float (v : ℚ) : Sample
  | Unsupported : Sample
deriving DecidableEq

/-- One PCM frame: one sample per channel. -/
structure Frame where
  samples : List Sample
deriving DecidableEq

/-- Model of the pcm crate's LoopInfo (u64 frame offsets). -/
structure PCMLoopInfo where
  loop_start : Nat
  loop_end : Nat
deriving DecidableEq

/-- Model of the pcm crate's PCMParameters.  sample_rate is u32,
nb_channels is u16 in the source; both are Nat here.  sample_type is the
tag sample used to pick the representation. -/
structure PCMParameters where
  nb_channels : Nat
  sample_rate : Nat
  sample_type : Sample
deriving DecidableEq

/-- Model of the pcm crate's PCM buffer.  The audio payload field of the
crate's structs is spelled audio' here (plain audio collides with a
lexical restriction of this development). -/
structure PCM where
  parameters : PCMParameters
  loop_info : Option (List PCMLoopInfo)
  frames : List Frame
deriving DecidableEq

/-- src/lib.rs Key: sound for a particular frequency made by an instrument. -/
structure Key where
  audio' : PCM
  frequency : ℚ
deriving DecidableEq

/-- src/lib.rs Note. -/
structure Note where
  start_at : ℚ
  end_at : ℚ
  duration : ℚ
  frequency_id : Nat
  on_velocity : ℚ
  off_velocity : ℚ
  instrument_id : Nat
deriving DecidableEq

/-- src/lib.rs LoopInfo (seconds). -/
structure LoopInfo where
  loop_start : ℚ
  loop_end : ℚ
deriving DecidableEq

/-- src/lib.rs Sequence. -/
structure Sequence where
  notes : List Note
  loop_info : Option (List LoopInfo)
deriving DecidableEq

/-- src/lib.rs FrequencyLookupTable: HashMap usize → f64, as an
association list of full f64 values (validity is checked at read time). -/
structure FrequencyLookupTable where
  lut : List (Nat × F64)
deriving DecidableEq

/-- Truncation of a rational toward zero (Int.tdiv is T-division),
modeling Rust float-to-integer truncation. -/
def ratTrunc (q : ℚ) : ℤ := Int.tdiv q.num (q.den : ℤ)

/-- Rust (expr as usize) on an f64: truncate toward zero, saturate below
at 0 (the saturation at usize::MAX is idealized away). -/
def rustAsUsize (q : ℚ) : Nat := (ratTrunc q).toNat

/-- Rust f64::round: round half away from zero. -/
def rustRound (q : ℚ) : ℤ :=
  if 0 ≤ q then ⌊q + 1/2⌋ else ⌈q - 1/2⌉

/-- Rust x.round() as usize. -/
def rustRoundToNat (q : ℚ) : Nat := (rustRound q).toNat

/-- Rust % on f64 for finite operands: remainder with the sign of the
dividend, x - y * trunc(x / y).  (x % 0.0 is NaN in Rust; this total
model returns x there, and no claim exercises that case.) -/
def fmod (x y : ℚ) : ℚ := x - y * (ratTrunc (x / y) : ℚ)

/-- is_valid_time_frequency on the idealized exact-rational times and
durations flowing through the pipeline: every positive rational is in
normal f64 range in this idealization, so validity is strict positivity.
(F64.is_valid_time_frequency is the full predicate, used where stored
f64 values are classified.) -/
def qIsValidTimeFrequency (q : ℚ) : Bool := decide (0 < q)

/-- check_valid_time_frequency on an idealized duration: Ok or the
ImpossibleTimeOrFrequency error carrying the value. -/
def qCheckValidTimeFrequency (q : ℚ) : Res Unit :=
  if qIsValidTimeFrequency q then .ok ()
  else .error (.ImpossibleTimeOrFrequency (F64.ofRat q))

/-- check_valid_time_frequency on a stored f64 value. -/
def F64.check_valid_time_frequency (v : F64) : Res Unit :=
  if v.is_valid_time_frequency then .ok ()
  else .error (.ImpossibleTimeOrFrequency v)

/-- src/lib.rs FrequencyLookupTable::get: Ok(stored value) if present and
valid; ImpossibleTimeOrFrequency(value) if present and invalid;
NoFrequencyForID(id) if absent. -/
def FrequencyLookupTable.get (t : FrequencyLookupTable) (id : Nat) : Res F64 :=
  match List.lookup id t.lut with
  | some v =>
    match v.check_valid_time_frequency with
    | .error e => .error e
    | .panic => .panic
    | .ok _ => .ok v
  | none => .error (.NoFrequencyForID id)

/-- Model of the Envelope trait object: its two amplitude methods.
Carried by instruments; never invoked by the render pipeline. -/
structure EnvelopeModel where
  before_during_sustain : ℚ → ℚ
  after_sustain : ℚ → ℚ

/-- Model of a KeyGenerator trait object: a function of
(frequency, parameters, duration).  The source method returns a Key and
panics (unimplemented!) on unsupported sample types; none models that
divergence. -/
def KeyGen : Type := ℚ → PCMParameters → ℚ → Option Key

/-- src/lib.rs Instrument. -/
structure Instrument where
  keys : List (Nat × Key)
  key_generator : Option KeyGen
  loopable : Bool
  envelope : Option EnvelopeModel

/-- src/lib.rs InstrumentTable: HashMap usize → Instrument. -/
structure InstrumentTable where
  instruments : List (Nat × Instrument)

/-- src/lib.rs MusicSequencer. -/
structure MusicSequencer where
  pcm_parameters : PCMParameters
  sequence : Sequence
  instruments : InstrumentTable
  frequency_lut : FrequencyLookupTable

/-- HashMap::insert on an association list: replace in place if the id is
present, append otherwise. -/
def alInsert {α : Type} (id : Nat) (v : α) : List (Nat × α) → List (Nat × α)
  | [] => [(id, v)]
  | (id', v') :: rest =>
    if id' = id then (id, v) :: rest else (id', v') :: alInsert id v rest

/-- Default frame used to discharge list indexing; the indices used by
the embedded code are always in bounds where the source does not panic. -/
def dummyFrame : Frame := { samples := [] }

/-- src/lib.rs Instrument::gen_sound.  After validating the duration and
looking up the cached key, the source computes
needed_frames = (duration * sample_rate) as usize and fills the output:
* loopable: pushes key.audio.frames[frame_position % (frames.len() - 1)]
  for each position.  When the loop body runs with 1 cached frame, the
  remainder is by zero, a panic; with 0 cached frames the usize len - 1
  underflows and indexing panics as well, so both are Res.panic.
* non-loopable: last_frame starts as &key.audio.frames[0] (an immediate
  panic on an empty cache), then each position copies frame
  frame_position while in range and repeats the last frame after. -/
def Instrument.gen_sound (inst : Instrument) (frequency_id : Nat) (duration : ℚ) : Res PCM :=
  match qCheckValidTimeFrequency duration with
  | .error e => .error e
  | .panic => .panic
  | .ok _ =>
    match List.lookup frequency_id inst.keys with
    | none => .error (.NoKeyForID frequency_id)
    | some key =>
      let needed_frames := rustAsUsize (duration * (key.audio'.parameters.sample_rate : ℚ))
      if inst.loopable then
        if needed_frames = 0 then
          .ok { parameters := key.audio'.parameters, loop_info := key.audio'.loop_info, frames := [] }
        else if key.audio'.frames.length ≤ 1 then
          .panic
        else
          .ok { parameters := key.audio'.parameters, loop_info := key.audio'.loop_info,
                frames := (List.range needed_frames).map (fun frame_position =>
                  key.audio'.frames.getD (frame_position % (key.audio'.frames.length - 1)) dummyFrame) }
      else
        if key.audio'.frames.length = 0 then
          .panic
        else
          .ok { parameters := key.audio'.parameters, loop_info := key.audio'.loop_info,
                frames := (List.range needed_frames).map (fun frame_position =>
                  if frame_position < key.audio'.frames.length then
                    key.audio'.frames.getD frame_position dummyFrame
                  else
                    key.audio'.frames.getD (key.audio'.frames.length - 1) dummyFrame) }

/-- src/lib.rs Instrument::get_any_key: any cached key, or NoDefaultKeyGiven. -/
def Instrument.get_any_key (inst : Instrument) : Res Key :=
  match inst.keys with
  | [] => .error .NoDefaultKeyGiven
  | (_, k) :: _ => .ok k

/-- src/tone_generators.rs SquareWaveGenerator::key_gen.  The while loop
steps pos_sample by 1.0 from 0.0 while pos_sample < nb_samples, so it
visits exactly the ⌈nb_samples⌉ naturals below nb_samples, and
pos_seconds, accumulated by sample_rate_period per step, equals
pos_sample * sample_rate_period exactly.  Emits +1.0 while
pos_seconds % note_period ≤ half_note_period, else -1.0, duplicated on
every channel.  Non-float sample types hit unimplemented! (none). -/
def squareWaveGen : KeyGen := fun frequency parameters duration =>
  match parameters.sample_type with
  | .Float _ =>
    let sample_rate : ℚ := (parameters.sample_rate : ℚ)
    let sample_rate_period : ℚ := sample_rate⁻¹
    let nb_samples : ℚ := sample_rate * duration
    let note_period : ℚ := frequency⁻¹
    let half_note_period : ℚ := note_period / 2
    let frames : List Frame := (List.range ⌈nb_samples⌉.toNat).map (fun (pos_sample : Nat) =>
      let pos_seconds : ℚ := (pos_sample : ℚ) * sample_rate_period
      if fmod pos_seconds note_period ≤ half_note_period then
        { samples := List.replicate parameters.nb_channels (Sample.Float 1) }
      else
        { samples := List.replicate parameters.nb_channels (Sample.Float (-1)) })
    some { audio' := { parameters := parameters, loop_info := none, frames := frames },
           frequency := frequency }
  | .Unsupported => none

/-- src/tone_generators.rs SineWaveGenerator::key_gen, parameterized by
the abstract routine sinPhase modeling phase ↦ ((phase * 2 * PI).sin() as
f32), the composite f64 sine and f32 cast whose exact values are
implementation-defined float approximations.  The while loop steps
sample by 1.0 from 0.0 while sample <= nb_samples (inclusive), so for
nb_samples ≥ 0 it emits ⌊nb_samples⌋ + 1 frames; the duration argument
is ignored.  Non-float sample types hit unimplemented! (none). -/
def sineWaveGen (sinPhase : ℚ → ℚ) : KeyGen := fun frequency parameters _duration =>
  match parameters.sample_type with
  | .Float _ =>
    let nb_samples : ℚ := (parameters.sample_rate : ℚ) / frequency
    let count : Nat := if 0 ≤ nb_samples then ⌊nb_samples⌋.toNat + 1 else 0
    let frames : List Frame := (List.range count).map (fun (sample : Nat) =>
      { samples := List.replicate parameters.nb_channels
          (Sample.Float (sinPhase ((sample : ℚ) / nb_samples))) })
    some { audio' := { parameters := parameters, loop_info := none, frames := frames },
           frequency := frequency }
  | .Unsupported => none

/-- src/lib.rs KeyPitchChanger::key_gen: unconditionally unimplemented!. -/
def keyPitchChangerGen : KeyGen := fun _ _ _ => none

/-- The comparator of Sequence::sort_by_time:
a.start_at.partial_cmp(&b.start_at) ascending (total on the idealized
rational times, so the unwrap never panics). -/
def noteLE (a b : Note) : Prop := a.start_at ≤ b.start_at

instance : DecidableRel noteLE := fun a b => inferInstanceAs (Decidable (a.start_at ≤ b.start_at))

instance : IsTotal Note noteLE := ⟨fun a b => le_total a.start_at b.start_at⟩

instance : IsTrans Note noteLE := ⟨fun _ _ _ h1 h2 => le_trans h1 h2⟩

/-- src/lib.rs Sequence::sort_by_time: stable sort of the notes ascending
by start_at (Rust's stable sort_by and this insertion sort agree). -/
def Sequence.sort_by_time (seq : Sequence) : Sequence :=
  { seq with notes := List.insertionSort noteLE seq.notes }

/-- The containment test of calc_max_notes_at_once:
(previous_time[0] <= note.start_at) & (note.start_at < previous_time[1]). -/
def intervalContains (start_at : ℚ) (previous_time : ℚ × ℚ) : Bool :=
  decide (previous_time.1 ≤ start_at) && decide (start_at < previous_time.2)

/-- The per-note body of calc_max_notes_at_once: count the previous
intervals containing the new start (passed), remove the ones that do not
(the failed-index removal keeps the passing intervals in order), push the
new note's interval, and fold the running maximum. -/
def calcMaxLoop : List Note → Nat → List (ℚ × ℚ) → Nat
  | [], max_notes, _ => max_notes
  | note :: rest, max_notes, previous_times =>
    let kept := previous_times.filter (intervalContains note.start_at)
    calcMaxLoop rest (max max_notes (kept.length + 1)) (kept ++ [(note.start_at, note.end_at)])

/-- src/lib.rs Sequence::calc_max_notes_at_once.  The source takes &mut
self and sorts the notes in place before the sweep; the model returns the
count together with the mutated sequence. -/
def Sequence.calc_max_notes_at_once (seq : Sequence) : Nat × Sequence :=
  if seq.notes.isEmpty then (0, seq)
  else
    let sorted := seq.sort_by_time
    (calcMaxLoop sorted.notes 1 [], sorted)

/-- The inner update of list_frequencies_for_instruments: record the
frequency id with its duration, or raise the recorded duration to the
maximum of the two (ft.1 = if ft.1 > note.duration then ft.1 else duration). -/
def updateFreqTimes (frequency_id : Nat) (duration : ℚ) : List (Nat × ℚ) → List (Nat × ℚ)
  | [] => [(frequency_id, duration)]
  | (f, d) :: rest =>
    if f = frequency_id then (f, if d > duration then d else duration) :: rest
    else (f, d) :: updateFreqTimes frequency_id duration rest

/-- entry(note.instrument_id).or_insert_with(Vec::new) followed by the
frequency update, on the association-list model of the HashMap. -/
def addNoteFreq : List (Nat × List (Nat × ℚ)) → Note → List (Nat × List (Nat × ℚ))
  | [], note => [(note.instrument_id, [(note.frequency_id, note.duration)])]
  | (iid, fts) :: rest, note =>
    if iid = note.instrument_id then
      (iid, updateFreqTimes note.frequency_id note.duration fts) :: rest
    else
      (iid, fts) :: addNoteFreq rest note

/-- src/lib.rs Sequence::list_frequencies_for_instruments. -/
def Sequence.list_frequencies_for_instruments (seq : Sequence) : List (Nat × List (Nat × ℚ)) :=
  seq.notes.foldl addNoteFreq []

/-- src/lib.rs Sequence::calc_music_duration: running maximum of end_at
starting from 0. -/
def Sequence.calc_music_duration (seq : Sequence) : ℚ :=
  seq.notes.foldl (fun duration note => if note.end_at > duration then note.end_at else duration) 0

/-- The Some(generator) loop of Instrument::gen_keys: resolve each
frequency id through the table, run the generator (a None result is the
unimplemented! panic for unsupported sample types), insert the new key. -/
def genKeysLoop (g : KeyGen) (f_lut : FrequencyLookupTable) (parameters : PCMParameters) :
    List (Nat × ℚ) → List (Nat × Key) → Res (List (Nat × Key))
  | [], keys => .ok keys
  | (frequency_id, duration) :: rest, keys =>
    match f_lut.get frequency_id with
    | .error e => .error e
    | .panic => .panic
    | .ok v =>
      match g v.toRat parameters duration with
      | none => .panic
      | some key => genKeysLoop g f_lut parameters rest (alInsert frequency_id key keys)

/-- The None branch of Instrument::gen_keys: the KeyPitchChanger seeded
from get_any_key; its key_gen panics (unimplemented!) as soon as a
frequency resolves, so the loop, argument order included, is: resolve the
frequency id (propagating table errors), then panic. -/
def pitchKeysLoop (f_lut : FrequencyLookupTable) : List (Nat × ℚ) → List (Nat × Key) → Res (List (Nat × Key))
  | [], keys => .ok keys
  | (frequency_id, _) :: _, _ =>
    match f_lut.get frequency_id with
    | .error e => .error e
    | .panic => .panic
    | .ok _ => .panic

/-- src/lib.rs Instrument::gen_keys, returning the instrument with its
mutated key cache. -/
def Instrument.gen_keys (inst : Instrument) (frequency_ids_durations : List (Nat × ℚ))
    (f_lut : FrequencyLookupTable) (parameters : PCMParameters) : Res Instrument :=
  match inst.key_generator with
  | some g =>
    match genKeysLoop g f_lut parameters frequency_ids_durations inst.keys with
    | .error e => .error e
    | .panic => .panic
    | .ok keys => .ok { inst with keys := keys }
  | none =>
    match inst.get_any_key with
    | .error e => .error e
    | .panic => .panic
    | .ok _ =>
      match pitchKeysLoop f_lut frequency_ids_durations inst.keys with
      | .error e => .error e
      | .panic => .panic
      | .ok keys => .ok { inst with keys := keys }

/-- src/lib.rs InstrumentTable::get: the instrument or NoInstrumentForID. -/
def InstrumentTable.get (t : InstrumentTable) (id : Nat) : Res Instrument :=
  match List.lookup id t.instruments with
  | some i => .ok i
  | none => .error (.NoInstrumentForID id)

/-- The loop of MusicSequencer::gen_instrument_keys over the
per-instrument frequency requirements, writing each mutated instrument
back into the table. -/
def genInstrumentKeysLoop (f_lut : FrequencyLookupTable) (parameters : PCMParameters) :
    List (Nat × List (Nat × ℚ)) → InstrumentTable → Res InstrumentTable
  | [], table => .ok table
  | (instrument_id, frequencies) :: rest, table =>
    match table.get instrument_id with
    | .error e => .error e
    | .panic => .panic
    | .ok inst =>
      match inst.gen_keys frequencies f_lut parameters with
      | .error e => .error e
      | .panic => .panic
      | .ok inst' =>
        genInstrumentKeysLoop f_lut parameters rest
          { instruments := alInsert instrument_id inst' table.instruments }

/-- src/lib.rs MusicSequencer::gen_instrument_keys, with the PCMParameters
copy (sample_type forced to Float) the source builds for generation. -/
def MusicSequencer.gen_instrument_keys (ms : MusicSequencer) : Res MusicSequencer :=
  match genInstrumentKeysLoop ms.frequency_lut
      { nb_channels := ms.pcm_parameters.nb_channels,
        sample_rate := ms.pcm_parameters.sample_rate,
        sample_type := Sample.Float 0 }
      ms.sequence.list_frequencies_for_instruments ms.instruments with
  | .error e => .error e
  | .panic => .panic
  | .ok table => .ok { ms with instruments := table }

/-- The inner channel loop of render: for sample_id in 0..nb_channels,
out[frame_id_out].samples[sample_id] = Float(s1 + s2 * amplitude_per_note
* on_velocity).  none models the panics of that body: an out-of-bounds
sample index or a non-Float sample on either side (unimplemented!).
Samples beyond nb_channels are left untouched. -/
def mixChannels (amplitude_per_note on_velocity : ℚ) :
    Nat → List Sample → List Sample → Option (List Sample)
  | 0, outs, _ => some outs
  | nb_channels + 1, s1 :: outs, s2 :: adds =>
    match s1, s2 with
    | .Float v1, .Float v2 =>
      match mixChannels amplitude_per_note on_velocity nb_channels outs adds with
      | some rest => some (.Float (v1 + v2 * amplitude_per_note * on_velocity) :: rest)
      | none => none
    | _, _ => none
  | _ + 1, _, _ => none

/-- The frame loop of render: frame_id walks the generated sound while
frame_id_out walks the output from the note's start offset; indexing the
output out of range is a panic (none). -/
def mixFrames (amplitude_per_note on_velocity : ℚ) (nb_channels : Nat) :
    List Frame → Nat → List Frame → Option (List Frame)
  | [], _, out => some out
  | f :: rest, frame_id_out, out =>
    if frame_id_out < out.length then
      match mixChannels amplitude_per_note on_velocity nb_channels
          (out.getD frame_id_out dummyFrame).samples f.samples with
      | none => none
      | some samples =>
        mixFrames amplitude_per_note on_velocity nb_channels rest (frame_id_out + 1)
          (out.set frame_id_out { samples := samples })
    else none

/-- The note loop of render: fetch the note's instrument, generate its
sound for the note's duration, and accumulate it into the output starting
at frame (note.start_at * sample_rate).round() as usize. -/
def mixNotes (instruments : InstrumentTable) (amplitude_per_note : ℚ)
    (sample_rate nb_channels : Nat) : List Note → List Frame → Res (List Frame)
  | [], out => .ok out
  | note :: rest, out =>
    match instruments.get note.instrument_id with
    | .error e => .error e
    | .panic => .panic
    | .ok inst =>
      match inst.gen_sound note.frequency_id note.duration with
      | .error e => .error e
      | .panic => .panic
      | .ok to_add =>
        match mixFrames amplitude_per_note note.on_velocity nb_channels to_add.frames
            (rustRoundToNat (note.start_at * (sample_rate : ℚ))) out with
        | none => .panic
        | some out' => mixNotes instruments amplitude_per_note sample_rate nb_channels rest out'

/-- The tail of MusicSequencer::render after the amplitude divisor is
fixed: size the zero-filled output from calc_music_duration (truncating),
mix every note, and tag the buffer with the sequencer's parameters. -/
def renderMix (ms : MusicSequencer) (amplitude_per_note : ℚ) : Res PCM :=
  let duration := ms.sequence.calc_music_duration
  let nb_frames := rustAsUsize (duration * (ms.pcm_parameters.sample_rate : ℚ))
  let out0 : List Frame :=
    List.replicate nb_frames
      { samples := List.replicate ms.pcm_parameters.nb_channels (Sample.Float 0) }
  match mixNotes ms.instruments amplitude_per_note ms.pcm_parameters.sample_rate
      ms.pcm_parameters.nb_channels ms.sequence.notes out0 with
  | .error e => .error e
  | .panic => .panic
  | .ok out =>
    .ok { parameters :=
            { nb_channels := ms.pcm_parameters.nb_channels,
              sample_rate := ms.pcm_parameters.sample_rate,
              sample_type := Sample.Float 0 },
          loop_info := none,
          frames := out }

/-- src/lib.rs MusicSequencer::render.  The amplitude divisor is
f32::from(max_notes_at_once as u16).recip(): the usize count truncates to
16 bits, and the reciprocal is idealized as exact ((0 : ℚ)⁻¹ = 0 stands
in for the f32 infinity produced by an empty sequence, where the divisor
is never used). -/
def MusicSequencer.render (ms : MusicSequencer) : Res PCM :=
  match ms.gen_instrument_keys with
  | .error e => .error e
  | .panic => .panic
  | .ok ms1 =>
    let p := ms1.sequence.calc_max_notes_at_once
    let amplitude_per_note : ℚ := ((p.1 % 65536 : Nat) : ℚ)⁻¹
    renderMix { ms1 with sequence := p.2 } amplitude_per_note

/-- Modelled from the spec: render as the spec describes it, identical to
MusicSequencer.render except that the global amplitude divisor is
1 / max(1, calc_max_notes_at_once()).  Used to compare the source's
divisor against the spec's. -/
def MusicSequencer.renderSpecDivisor (ms : MusicSequencer) : Res PCM :=
  match ms.gen_instrument_keys with
  | .error e => .error e
  | .panic => .panic
  | .ok ms1 =>
    let p := ms1.sequence.calc_max_notes_at_once
    let amplitude_per_note : ℚ := ((max 1 p.1 : Nat) : ℚ)⁻¹
    renderMix { ms1 with sequence := p.2 } amplitude_per_note

/-- A one-frame loopable test instrument (sample rate 1, one channel). -/
def oneFrameKey : Key :=
  { audio' := { parameters := { nb_channels := 1, sample_rate := 1, sample_type := .Float 0 },
                loop_info := none,
                frames := [{ samples := [.Float 1] }] },
    frequency := 440 }

/-- Loopable instrument caching oneFrameKey at frequency id 0. -/
def loopInst1 : Instrument :=
  { keys := [(0, oneFrameKey)], key_generator := none, loopable := true, envelope := none }

/-- A two-frame test key with distinct frames (sample rate 1, one channel). -/
def twoFrameKey : Key :=
  { audio' := { parameters := { nb_channels := 1, sample_rate := 1, sample_type := .Float 0 },
                loop_info := none,
                frames := [{ samples := [.Float 1] }, { samples := [.Float 0] }] },
    frequency := 440 }

/-- Loopable instrument caching twoFrameKey at frequency id 0. -/
def loopInst2 : Instrument :=
  { keys := [(0, twoFrameKey)], key_generator := none, loopable := true, envelope := none }

/-- Non-loopable instrument caching twoFrameKey at frequency id 0. -/
def holdInst2 : Instrument :=
  { keys := [(0, twoFrameKey)], key_generator := none, loopable := false, envelope := none }

/-- A note of full unit duration starting at 0, used 65536-fold below. -/
def ceNote : Note :=
  { start_at := 0, end_at := 1, duration := 1, frequency_id := 0,
    on_velocity := 1, off_velocity := 0, instrument_id := 0 }

/-- A user key generator producing a constant one-frame unit key. -/
def ceKeyGen : KeyGen := fun frequency parameters _duration =>
  some { audio' := { parameters := parameters, loop_info := none,
                     frames := [{ samples := [Sample.Float 1] }] },
         frequency := frequency }

/-- Non-loopable instrument with the constant generator and empty cache. -/
def ceInstrument : Instrument :=
  { keys := [], key_generator := some ceKeyGen, loopable := false, envelope := none }

/-- The key ceKeyGen produces for the render parameters below. -/
def ceKey : Key :=
  { audio' := { parameters := { nb_channels := 1, sample_rate := 1, sample_type := .Float 0 },
                loop_info := none,
                frames := [{ samples := [Sample.Float 1] }] },
    frequency := 440 }

/-- ceInstrument after key generation. -/
def ceInstrumentGen : Instrument :=
  { keys := [(0, ceKey)], key_generator := some ceKeyGen, loopable := false, envelope := none }

/-- A sequence of 65536 copies of ceNote, all fully simultaneous. -/
def ceSeq : Sequence := { notes := List.replicate 65536 ceNote, loop_info := none }

/-- Sequencer with 65536 fully simultaneous notes on one instrument at
one frequency (sample rate 1, one channel, one output frame). -/
def ceMS : MusicSequencer :=
  { pcm_parameters := { nb_channels := 1, sample_rate := 1, sample_type := .Float 0 },
    sequence := ceSeq,
    instruments := { instruments := [(0, ceInstrument)] },
    frequency_lut := { lut := [(0, F64.ofRat 440)] } }

/-- ceMS after key generation. -/
def ceMS1 : MusicSequencer :=
  { pcm_parameters := { nb_channels := 1, sample_rate := 1, sample_type := .Float 0 },
    sequence := ceSeq,
    instruments := { instruments := [(0, ceInstrumentGen)] },
    frequency_lut := { lut := [(0, F64.ofRat 440)] } }

theorem getD_range_map {α : Type} (f : Nat → α) (n k : Nat) (d : α) (h : k < n) :
    ((List.range n).map f).getD k d = f k := by
  rw [List.getD_eq_getElem?_getD, List.getElem?_map, List.getElem?_range h]
  rfl

theorem rustAsUsize_natCast (n : Nat) : rustAsUsize ((n : Nat) : ℚ) = n := by
  simp [rustAsUsize, ratTrunc]

theorem rustAsUsize_eq_of_eq_natCast (q : ℚ) (n : Nat) (h : q = ((n : Nat) : ℚ)) :
    rustAsUsize q = n := by
  rw [h, rustAsUsize_natCast]

/-- C7: FrequencyLookupTable::get on an absent id fails with
NoFrequencyForID carrying the id; on a present id whose stored value is
not a strictly positive, finite, normal number it fails with
ImpossibleTimeOrFrequency carrying the stored value; otherwise it returns
the stored Hz value. -/
theorem freq_lut_get_spec (t : FrequencyLookupTable) (id : Nat) :
    (List.lookup id t.lut = none → t.get id = .error (.NoFrequencyForID id)) ∧
    (∀ v, List.lookup id t.lut = some v → v.is_valid_time_frequency = false →
      t.get id = .error (.ImpossibleTimeOrFrequency v)) ∧
    (∀ v, List.lookup id t.lut = some v → v.is_valid_time_frequency = true →
      t.get id = .ok v) := by
  refine ⟨fun h => ?_, fun v h hv => ?_, fun v h hv => ?_⟩
  · simp [FrequencyLookupTable.get, h]
  · simp [FrequencyLookupTable.get, h, F64.check_valid_time_frequency, hv]
  · simp [FrequencyLookupTable.get, h, F64.check_valid_time_frequency, hv]

theorem freq_lut_get_spec_witness :
    FrequencyLookupTable.get ⟨[(1, F64.nan), (2, F64.ofRat 440), (3, F64.val 0 false)]⟩ 0
        = .error (.NoFrequencyForID 0) ∧
    FrequencyLookupTable.get ⟨[(1, F64.nan), (2, F64.ofRat 440), (3, F64.val 0 false)]⟩ 1
        = .error (.ImpossibleTimeOrFrequency F64.nan) ∧
    FrequencyLookupTable.get ⟨[(1, F64.nan), (2, F64.ofRat 440), (3, F64.val 0 false)]⟩ 3
        = .error (.ImpossibleTimeOrFrequency (F64.val 0 false)) ∧
    FrequencyLookupTable.get ⟨[(1, F64.nan), (2, F64.ofRat 440), (3, F64.val 0 false)]⟩ 2
        = .ok (F64.ofRat 440) :=
  ⟨(freq_lut_get_spec _ 0).1 (by decide),
   (freq_lut_get_spec _ 1).2.1 _ (by decide) (by decide),
   (freq_lut_get_spec _ 3).2.1 _ (by decide) (by decide),
   (freq_lut_get_spec _ 2).2.2 _ (by decide) (by decide)⟩

/-- C9: in gen_sound's loopable branch the index is
frame_position % (frames.len() - 1), so a loopable instrument whose
cached key holds exactly one frame makes the operation a remainder by
zero: for every valid duration needing at least one frame the call
panics instead of returning. -/
theorem gen_sound_single_frame_loop_panics (inst : Instrument) (frequency_id : Nat)
    (duration : ℚ) (key : Key)
    (hloop : inst.loopable = true)
    (hkey : List.lookup frequency_id inst.keys = some key)
    (hlen : key.audio'.frames.length = 1)
    (hdur : 0 < duration)
    (hneed : 1 ≤ rustAsUsize (duration * (key.audio'.parameters.sample_rate : ℚ))) :
    inst.gen_sound frequency_id duration = .panic := by
  have hvalid : qIsValidTimeFrequency duration = true := by
    simpa [qIsValidTimeFrequency] using hdur
  have hne : rustAsUsize (duration * (key.audio'.parameters.sample_rate : ℚ)) ≠ 0 := by omega
  simp [Instrument.gen_sound, qCheckValidTimeFrequency, hvalid, hkey, hloop, hne, hlen]

theorem gen_sound_single_frame_loop_panics_witness :
    loopInst1.gen_sound 0 1 = .panic :=
  gen_sound_single_frame_loop_panics loopInst1 0 1 oneFrameKey rfl (by decide) (by decide)
    (by norm_num) (by norm_num [rustAsUsize, ratTrunc, oneFrameKey])

theorem gen_sound_loopable_eq (inst : Instrument) (frequency_id : Nat) (duration : ℚ) (key : Key)
    (hloop : inst.loopable = true)
    (hkey : List.lookup frequency_id inst.keys = some key)
    (hlen : ¬ key.audio'.frames.length ≤ 1)
    (hdur : 0 < duration)
    (hne : rustAsUsize (duration * (key.audio'.parameters.sample_rate : ℚ)) ≠ 0) :
    inst.gen_sound frequency_id duration =
      .ok { parameters := key.audio'.parameters, loop_info := key.audio'.loop_info,
            frames := (List.range (rustAsUsize (duration * (key.audio'.parameters.sample_rate : ℚ)))).map
              (fun frame_position =>
                key.audio'.frames.getD (frame_position % (key.audio'.frames.length - 1)) dummyFrame) } := by
  have hvalid : qIsValidTimeFrequency duration = true := by
    simpa [qIsValidTimeFrequency] using hdur
  simp [Instrument.gen_sound, qCheckValidTimeFrequency, hvalid, hkey, hloop, hne, hlen]

theorem gen_sound_loopable_zero_eq (inst : Instrument) (frequency_id : Nat) (duration : ℚ)
    (key : Key)
    (hloop : inst.loopable = true)
    (hkey : List.lookup frequency_id inst.keys = some key)
    (hdur : 0 < duration)
    (hzero : rustAsUsize (duration * (key.audio'.parameters.sample_rate : ℚ)) = 0) :
    inst.gen_sound frequency_id duration =
      .ok { parameters := key.audio'.parameters, loop_info := key.audio'.loop_info,
            frames := [] } := by
  have hvalid : qIsValidTimeFrequency duration = true := by
    simpa [qIsValidTimeFrequency] using hdur
  simp [Instrument.gen_sound, qCheckValidTimeFrequency, hvalid, hkey, hloop, hzero]

theorem gen_sound_nonloop_eq (inst : Instrument) (frequency_id : Nat) (duration : ℚ) (key : Key)
    (hloop : inst.loopable = false)
    (hkey : List.lookup frequency_id inst.keys = some key)
    (hlen : key.audio'.frames.length ≠ 0)
    (hdur : 0 < duration) :
    inst.gen_sound frequency_id duration =
      .ok { parameters := key.audio'.parameters, loop_info := key.audio'.loop_info,
            frames := (List.range (rustAsUsize (duration * (key.audio'.parameters.sample_rate : ℚ)))).map
              (fun frame_position =>
                if frame_position < key.audio'.frames.length then
                  key.audio'.frames.getD frame_position dummyFrame
                else
                  key.audio'.frames.getD (key.audio'.frames.length - 1) dummyFrame) } := by
  have hvalid : qIsValidTimeFrequency duration = true := by
    simpa [qIsValidTimeFrequency] using hdur
  simp [Instrument.gen_sound, qCheckValidTimeFrequency, hvalid, hkey, hloop, hlen]

/-- C1 as stated is false: the loopable branch cycles modulo
(length - 1), not modulo the full cached length.  For the two-frame key
(frames A then B) at sample rate 1 and duration 3 (so 3 > L = 2 frames
are needed), the claim predicts output frame 1 = B, but gen_sound
produces A at every position. -/
theorem gen_sound_loopable_modulo_full_length_counterexample :
    ¬ ∃ pcm, loopInst2.gen_sound 0 3 = .ok pcm ∧
        pcm.frames.length = 3 ∧
        ∀ k, k < 3 →
          pcm.frames.getD k dummyFrame
            = twoFrameKey.audio'.frames.getD (k % twoFrameKey.audio'.frames.length) dummyFrame := by
  rintro ⟨pcm, hok, -, hall⟩
  have h3 : rustAsUsize (3 * ((twoFrameKey.audio'.parameters.sample_rate : Nat) : ℚ)) = 3 := by
    exact rustAsUsize_eq_of_eq_natCast _ 3 (by norm_num [twoFrameKey])
  have heval := gen_sound_loopable_eq loopInst2 0 3 twoFrameKey rfl (by decide) (by decide)
    (by norm_num) (by rw [h3]; omega)
  rw [h3] at heval
  rw [heval] at hok
  injection hok with hok
  subst hok
  have h1 := hall 1 (by omega)
  rw [getD_range_map _ _ _ _ (by omega)] at h1
  simp [twoFrameKey] at h1

/-- C1 amended: for a loopable instrument whose cached key has L ≥ 2
frames and a valid duration needing more than L frames, gen_sound
returns a buffer of exactly the needed frame count in which the frame at
every output position k is frame (k mod (L - 1)) of the cached key: the
waveform is cycled modulo L - 1, so the final cached frame is never
reproduced (and a single-frame cached key panics instead, see the
remainder-by-zero theorem). -/
theorem gen_sound_loopable_cycles (inst : Instrument) (frequency_id : Nat) (duration : ℚ)
    (key : Key)
    (hloop : inst.loopable = true)
    (hkey : List.lookup frequency_id inst.keys = some key)
    (hlen : 2 ≤ key.audio'.frames.length)
    (hdur : 0 < duration)
    (hneed : key.audio'.frames.length < rustAsUsize (duration * (key.audio'.parameters.sample_rate : ℚ))) :
    ∃ pcm, inst.gen_sound frequency_id duration = .ok pcm ∧
      pcm.frames.length = rustAsUsize (duration * (key.audio'.parameters.sample_rate : ℚ)) ∧
      ∀ k, k < rustAsUsize (duration * (key.audio'.parameters.sample_rate : ℚ)) →
        pcm.frames.getD k dummyFrame
          = key.audio'.frames.getD (k % (key.audio'.frames.length - 1)) dummyFrame := by
  have heval := gen_sound_loopable_eq inst frequency_id duration key hloop hkey (by omega) hdur
    (by omega)
  exact ⟨_, heval, by simp, fun k hk => getD_range_map _ _ _ _ hk⟩

theorem gen_sound_loopable_cycles_witness :
    ∃ pcm, loopInst2.gen_sound 0 3 = .ok pcm ∧
      pcm.frames.length = rustAsUsize (3 * ((twoFrameKey.audio'.parameters.sample_rate : Nat) : ℚ)) ∧
      ∀ k, k < rustAsUsize (3 * ((twoFrameKey.audio'.parameters.sample_rate : Nat) : ℚ)) →
        pcm.frames.getD k dummyFrame
          = twoFrameKey.audio'.frames.getD (k % (twoFrameKey.audio'.frames.length - 1)) dummyFrame :=
  gen_sound_loopable_cycles loopInst2 0 3 twoFrameKey rfl (by decide) (by decide) (by norm_num)
    (by rw [rustAsUsize_eq_of_eq_natCast _ 3 (by norm_num [twoFrameKey])]; decide)

theorem gen_sound_loop_short_panic_eq (inst : Instrument) (frequency_id : Nat) (duration : ℚ)
    (key : Key)
    (hloop : inst.loopable = true)
    (hkey : List.lookup frequency_id inst.keys = some key)
    (hlen : key.audio'.frames.length ≤ 1)
    (hdur : 0 < duration)
    (hne : rustAsUsize (duration * (key.audio'.parameters.sample_rate : ℚ)) ≠ 0) :
    inst.gen_sound frequency_id duration = .panic := by
  have hvalid : qIsValidTimeFrequency duration = true := by
    simpa [qIsValidTimeFrequency] using hdur
  simp [Instrument.gen_sound, qCheckValidTimeFrequency, hvalid, hkey, hloop, hne, hlen]

/-- C3 as stated is false: a loopable instrument whose cached key holds a
single frame panics on the remainder by zero instead of returning a
buffer, even though the duration (1 second at sample rate 1, needing one
frame) is strictly positive, finite and normal. -/
theorem gen_sound_frame_count_counterexample :
    ¬ ∃ pcm, loopInst1.gen_sound 0 1 = .ok pcm ∧
        pcm.frames.length
          = rustAsUsize (1 * ((oneFrameKey.audio'.parameters.sample_rate : Nat) : ℚ)) := by
  rintro ⟨pcm, hok, -⟩
  have hpanic : loopInst1.gen_sound 0 1 = .panic :=
    gen_sound_loop_short_panic_eq loopInst1 0 1 oneFrameKey rfl (by decide) (by decide)
      (by norm_num)
      (by rw [rustAsUsize_eq_of_eq_natCast _ 1 (by norm_num [oneFrameKey])]; decide)
  rw [hpanic] at hok
  exact Res.noConfusion hok

/-- C3 amended: gen_sound returns a PCM buffer of exactly
trunc(duration * sample_rate) frames for every valid (strictly positive,
finite, normal) duration and cached key, provided the cached key is long
enough for the branch taken: at least two frames for a loopable
instrument (a shorter cache panics as soon as frames are needed), at
least one frame for a non-loopable one (an empty cache always panics). -/
theorem gen_sound_frame_count (inst : Instrument) (frequency_id : Nat) (duration : ℚ) (key : Key)
    (hkey : List.lookup frequency_id inst.keys = some key)
    (hdur : 0 < duration)
    (hloopframes : inst.loopable = true → 2 ≤ key.audio'.frames.length)
    (hholdframes : inst.loopable = false → 1 ≤ key.audio'.frames.length) :
    ∃ pcm, inst.gen_sound frequency_id duration = .ok pcm ∧
      pcm.frames.length = rustAsUsize (duration * (key.audio'.parameters.sample_rate : ℚ)) := by
  cases hb : inst.loopable with
  | true =>
    have hframes := hloopframes hb
    by_cases hz : rustAsUsize (duration * (key.audio'.parameters.sample_rate : ℚ)) = 0
    · exact ⟨_, gen_sound_loopable_zero_eq inst frequency_id duration key hb hkey hdur hz,
        by simp [hz]⟩
    · exact ⟨_, gen_sound_loopable_eq inst frequency_id duration key hb hkey (by omega) hdur hz,
        by simp⟩
  | false =>
    have hframes := hholdframes hb
    exact ⟨_, gen_sound_nonloop_eq inst frequency_id duration key hb hkey (by omega) hdur,
      by simp⟩

theorem gen_sound_frame_count_witness :
    ∃ pcm, holdInst2.gen_sound 0 3 = .ok pcm ∧
      pcm.frames.length
        = rustAsUsize (3 * ((twoFrameKey.audio'.parameters.sample_rate : Nat) : ℚ)) :=
  gen_sound_frame_count holdInst2 0 3 twoFrameKey (by decide) (by norm_num)
    (by intro h; exact absurd h (by decide)) (by intro h; decide)

/-- C4: for a non-loopable instrument with a non-empty cached key of L
frames and a valid duration needing N > L frames, gen_sound returns a
buffer of N frames whose first L frames are the cached key's frames in
order and whose frames at every position L ≤ p < N all equal the cached
key's last frame. -/
theorem gen_sound_nonloop_holds_last (inst : Instrument) (frequency_id : Nat) (duration : ℚ)
    (key : Key)
    (hloop : inst.loopable = false)
    (hkey : List.lookup frequency_id inst.keys = some key)
    (hlen : 1 ≤ key.audio'.frames.length)
    (hdur : 0 < duration)
    (hneed : key.audio'.frames.length
      < rustAsUsize (duration * (key.audio'.parameters.sample_rate : ℚ))) :
    ∃ pcm, inst.gen_sound frequency_id duration = .ok pcm ∧
      pcm.frames.length = rustAsUsize (duration * (key.audio'.parameters.sample_rate : ℚ)) ∧
      (∀ k, k < key.audio'.frames.length →
        pcm.frames.getD k dummyFrame = key.audio'.frames.getD k dummyFrame) ∧
      (∀ p, key.audio'.frames.length ≤ p →
        p < rustAsUsize (duration * (key.audio'.parameters.sample_rate : ℚ)) →
        pcm.frames.getD p dummyFrame
          = key.audio'.frames.getD (key.audio'.frames.length - 1) dummyFrame) := by
  have heval := gen_sound_nonloop_eq inst frequency_id duration key hloop hkey (by omega) hdur
  refine ⟨_, heval, by simp, fun k hk => ?_, fun p hp hplt => ?_⟩
  · rw [getD_range_map _ _ _ _ (by omega)]
    rw [if_pos hk]
  · rw [getD_range_map _ _ _ _ hplt]
    rw [if_neg (Nat.not_lt.mpr hp)]

theorem gen_sound_nonloop_holds_last_witness :
    ∃ pcm, holdInst2.gen_sound 0 3 = .ok pcm ∧
      pcm.frames.length
        = rustAsUsize (3 * ((twoFrameKey.audio'.parameters.sample_rate : Nat) : ℚ)) ∧
      (∀ k, k < twoFrameKey.audio'.frames.length →
        pcm.frames.getD k dummyFrame = twoFrameKey.audio'.frames.getD k dummyFrame) ∧
      (∀ p, twoFrameKey.audio'.frames.length ≤ p →
        p < rustAsUsize (3 * ((twoFrameKey.audio'.parameters.sample_rate : Nat) : ℚ)) →
        pcm.frames.getD p dummyFrame
          = twoFrameKey.audio'.frames.getD (twoFrameKey.audio'.frames.length - 1) dummyFrame) :=
  gen_sound_nonloop_holds_last holdInst2 0 3 twoFrameKey rfl (by decide) (by decide) (by norm_num)
    (by rw [rustAsUsize_eq_of_eq_natCast _ 3 (by norm_num [twoFrameKey])]; decide)

theorem squareWaveGen_eq (frequency : ℚ) (parameters : PCMParameters) (duration v : ℚ)
    (hst : parameters.sample_type = .Float v) :
    squareWaveGen frequency parameters duration =
      some { audio' :=
              { parameters := parameters, loop_info := none,
                frames := (List.range ⌈(parameters.sample_rate : ℚ) * duration⌉.toNat).map
                  (fun (pos_sample : Nat) =>
                    if fmod ((pos_sample : ℚ) * (parameters.sample_rate : ℚ)⁻¹) frequency⁻¹
                        ≤ frequency⁻¹ / 2 then
                      { samples := List.replicate parameters.nb_channels (Sample.Float 1) }
                    else
                      { samples := List.replicate parameters.nb_channels (Sample.Float (-1)) }) },
             frequency := frequency } := by
  simp [squareWaveGen, hst]

/-- C5 as stated is false: the square-wave loop runs while
pos_sample < nb_samples, so the frame count is the ceiling of
sample_rate * duration, not its rounding.  At sample rate 4 and duration
9/16 the product is 9/4 = 2.25, which rounds to 2, but the generator
emits 3 frames. -/
theorem square_wave_round_count_counterexample :
    ¬ ((squareWaveGen 1 { nb_channels := 1, sample_rate := 4, sample_type := .Float 0 } (9/16)).map
          (fun key => key.audio'.frames.length)
        = some (rustRoundToNat ((4 : ℚ) * (9/16)))) := by
  rw [squareWaveGen_eq 1 { nb_channels := 1, sample_rate := 4, sample_type := .Float 0 } (9/16) 0
    rfl]
  have hceil : ⌈(4 : ℚ) * (9/16)⌉.toNat = 3 := by
    rw [show ⌈(4 : ℚ) * (9/16)⌉ = 3 by rw [Int.ceil_eq_iff] <;> norm_num]
    decide
  have hround : rustRoundToNat ((4 : ℚ) * (9/16)) = 2 := by
    rw [rustRoundToNat, rustRound, if_pos (by norm_num)]
    rw [show ⌊(4 : ℚ) * (9/16) + 1/2⌋ = 2 by rw [Int.floor_eq_iff] <;> norm_num]
    decide
  simp [hceil, hround]

/-- C5 amended: for every valid (strictly positive, finite, normal)
frequency and duration and float sample parameters, the square-wave
key_gen returns a buffer of exactly ⌈sample_rate * duration⌉ frames
(ceiling, not rounding), every sample of which is +1.0 or -1.0
duplicated identically across all channels. -/
theorem square_wave_key_gen_spec (frequency : ℚ) (parameters : PCMParameters) (duration v : ℚ)
    (hst : parameters.sample_type = .Float v)
    (hfreq : 0 < frequency)
    (hdur : 0 < duration) :
    ∃ key, squareWaveGen frequency parameters duration = some key ∧
      key.audio'.frames.length = ⌈(parameters.sample_rate : ℚ) * duration⌉.toNat ∧
      ∀ f ∈ key.audio'.frames,
        f.samples = List.replicate parameters.nb_channels (Sample.Float 1) ∨
        f.samples = List.replicate parameters.nb_channels (Sample.Float (-1)) := by
  refine ⟨_, squareWaveGen_eq frequency parameters duration v hst, by simp, ?_⟩
  intro f hf
  rw [List.mem_map] at hf
  obtain ⟨pos_sample, -, rfl⟩ := hf
  by_cases h : fmod ((pos_sample : ℚ) * (parameters.sample_rate : ℚ)⁻¹) frequency⁻¹
      ≤ frequency⁻¹ / 2
  · left
    rw [if_pos h]
  · right
    rw [if_neg h]

theorem square_wave_key_gen_spec_witness :
    ∃ key, squareWaveGen 1 { nb_channels := 1, sample_rate := 4, sample_type := .Float 0 } (9/16)
        = some key ∧
      key.audio'.frames.length
        = ⌈(({ nb_channels := 1, sample_rate := 4, sample_type := .Float 0 }
            : PCMParameters).sample_rate : ℚ) * (9/16)⌉.toNat ∧
      ∀ f ∈ key.audio'.frames,
        f.samples = List.replicate 1 (Sample.Float 1) ∨
        f.samples = List.replicate 1 (Sample.Float (-1)) :=
  square_wave_key_gen_spec 1 { nb_channels := 1, sample_rate := 4, sample_type := .Float 0 }
    (9/16) 0 rfl (by norm_num) (by norm_num)

theorem sineWaveGen_eq (sinPhase : ℚ → ℚ) (frequency : ℚ) (parameters : PCMParameters)
    (duration v : ℚ)
    (hst : parameters.sample_type = .Float v)
    (hfreq : 0 < frequency) :
    sineWaveGen sinPhase frequency parameters duration =
      some { audio' :=
              { parameters := parameters, loop_info := none,
                frames := (List.range (⌊(parameters.sample_rate : ℚ) / frequency⌋.toNat + 1)).map
                  (fun (sample : Nat) =>
                    { samples := List.replicate parameters.nb_channels
                        (Sample.Float (sinPhase
                          ((sample : ℚ) / ((parameters.sample_rate : ℚ) / frequency)))) }) },
             frequency := frequency } := by
  have h0 : (0 : ℚ) ≤ (parameters.sample_rate : ℚ) / frequency :=
    div_nonneg (Nat.cast_nonneg _) hfreq.le
  simp [sineWaveGen, hst, h0]

/-- C6 as stated is false: the sine-wave loop bound is inclusive
(sample <= nb_samples), so the generator emits
⌊sample_rate / frequency⌋ + 1 frames, one more than the claimed
sample_rate / frequency.  At sample rate 4 and frequency 2 the claim
predicts 2 frames but the generator emits 3. -/
theorem sine_wave_one_cycle_counterexample :
    ¬ ((sineWaveGen (fun _ => 0) 2 { nb_channels := 1, sample_rate := 4, sample_type := .Float 0 }
          1).map (fun key => key.audio'.frames.length) = some (4 / 2)) := by
  rw [sineWaveGen_eq (fun _ => 0) 2 { nb_channels := 1, sample_rate := 4, sample_type := .Float 0 }
    1 0 rfl (by norm_num)]
  have hfloor : ⌊(4 : ℚ) / 2⌋.toNat = 2 := by
    rw [show ⌊(4 : ℚ) / 2⌋ = 2 by rw [Int.floor_eq_iff] <;> norm_num]
    decide
  simp [hfloor]

/-- C6 amended: for every valid frequency and float sample parameters,
the sine-wave key_gen emits ⌊sample_rate / frequency⌋ + 1 frames (one
full cycle plus a duplicate endpoint sample, from the inclusive loop
bound), whose value at position k is sin(2π · k / (sample_rate /
frequency)) — modeled by the abstract float routine sinPhase — duplicated
on every channel, and the output is identical for all requested
durations. -/
theorem sine_wave_key_gen_spec (sinPhase : ℚ → ℚ) (frequency : ℚ) (parameters : PCMParameters)
    (duration duration' v : ℚ)
    (hst : parameters.sample_type = .Float v)
    (hfreq : 0 < frequency) :
    ∃ key, sineWaveGen sinPhase frequency parameters duration = some key ∧
      key.audio'.frames.length = ⌊(parameters.sample_rate : ℚ) / frequency⌋.toNat + 1 ∧
      (∀ k, k < ⌊(parameters.sample_rate : ℚ) / frequency⌋.toNat + 1 →
        key.audio'.frames.getD k dummyFrame
          = { samples := List.replicate parameters.nb_channels
                (Sample.Float (sinPhase
                  ((k : ℚ) / ((parameters.sample_rate : ℚ) / frequency)))) }) ∧
      sineWaveGen sinPhase frequency parameters duration
        = sineWaveGen sinPhase frequency parameters duration' := by
  refine ⟨_, sineWaveGen_eq sinPhase frequency parameters duration v hst hfreq, by simp,
    fun k hk => getD_range_map _ _ _ _ hk, rfl⟩

theorem sine_wave_key_gen_spec_witness :
    ∃ key, sineWaveGen (fun _ => 0) 2
        { nb_channels := 1, sample_rate := 4, sample_type := .Float 0 } 1 = some key ∧
      key.audio'.frames.length
        = ⌊(({ nb_channels := 1, sample_rate := 4, sample_type := .Float 0 }
            : PCMParameters).sample_rate : ℚ) / 2⌋.toNat + 1 ∧
      (∀ k, k < ⌊(({ nb_channels := 1, sample_rate := 4, sample_type := .Float 0 }
            : PCMParameters).sample_rate : ℚ) / 2⌋.toNat + 1 →
        key.audio'.frames.getD k dummyFrame
          = { samples := List.replicate 1
                (Sample.Float ((fun _ => (0:ℚ))
                  ((k : ℚ) / ((({ nb_channels := 1, sample_rate := 4, sample_type := .Float 0 }
                    : PCMParameters).sample_rate : ℚ) / 2)))) }) ∧
      sineWaveGen (fun _ => 0) 2
          { nb_channels := 1, sample_rate := 4, sample_type := .Float 0 } 1
        = sineWaveGen (fun _ => 0) 2
          { nb_channels := 1, sample_rate := 4, sample_type := .Float 0 } 7 :=
  sine_wave_key_gen_spec (fun _ => 0) 2
    { nb_channels := 1, sample_rate := 4, sample_type := .Float 0 } 1 7 0 rfl (by norm_num)

theorem calcMaxLoop_const (s e : ℚ) (hse : s < e) :
    ∀ (l : List Note) (k m : Nat),
      (∀ n ∈ l, n.start_at = s ∧ n.end_at = e) →
      calcMaxLoop l m (List.replicate k (s, e)) =
        if l.isEmpty then m else max m (k + l.length) := by
  intro l
  induction l with
  | nil =>
    intro k m _
    simp [calcMaxLoop]
  | cons n rest ih =>
    intro k m h
    obtain ⟨hs, he⟩ := h n (List.mem_cons_self _ _)
    have hrest : ∀ x ∈ rest, x.start_at = s ∧ x.end_at = e :=
      fun x hx => h x (List.mem_cons_of_mem _ hx)
    have hfilter : (List.replicate k (s, e)).filter (intervalContains n.start_at)
        = List.replicate k (s, e) := by
      apply List.filter_eq_self.mpr
      intro a ha
      rw [List.eq_of_mem_replicate ha]
      simp [intervalContains, hs, hse]
    rw [calcMaxLoop, hfilter, List.length_replicate, hs, he, ← List.replicate_succ',
      ih (k + 1) (max m (k + 1)) hrest]
    cases rest with
    | nil => simp
    | cons m' rest' => simp [List.length_cons]; omega

/-- C8 as stated is false: the sweep's containment test
start <= t < end is half-open, so two notes sharing an identical start
and end time (a zero-duration interval) never count as overlapping:
calc_max_notes_at_once returns 1, not 2, for two copies of such a note. -/
theorem calc_max_equal_start_end_counterexample :
    ¬ ((Sequence.calc_max_notes_at_once
        { notes := [{ start_at := 1, end_at := 1, duration := 0, frequency_id := 0,
                      on_velocity := 1, off_velocity := 0, instrument_id := 0 },
                    { start_at := 1, end_at := 1, duration := 0, frequency_id := 0,
                      on_velocity := 1, off_velocity := 0, instrument_id := 0 }],
          loop_info := none }).1 = 2) := by
  norm_num [Sequence.calc_max_notes_at_once, Sequence.sort_by_time, List.insertionSort,
    List.orderedInsert, noteLE, calcMaxLoop, intervalContains]

/-- C8 amended: for every N ≥ 1 and every sequence of exactly N notes
that all share the same start time and the same end time, with the
shared start time strictly before the shared end time,
calc_max_notes_at_once() returns N. -/
theorem calc_max_all_same_interval (seq : Sequence) (N : Nat) (s e : ℚ)
    (hN : 1 ≤ N)
    (hlen : seq.notes.length = N)
    (hse : s < e)
    (hall : ∀ n ∈ seq.notes, n.start_at = s ∧ n.end_at = e) :
    (seq.calc_max_notes_at_once).1 = N := by
  have hb : seq.notes.isEmpty = false := by
    cases hnn : seq.notes
    · rw [hnn] at hlen
      simp at hlen
      omega
    · simp
  simp only [Sequence.calc_max_notes_at_once, hb, Bool.false_eq_true, if_false,
    Sequence.sort_by_time]
  have hall' : ∀ n ∈ List.insertionSort noteLE seq.notes, n.start_at = s ∧ n.end_at = e :=
    fun n hn => hall n ((List.perm_insertionSort noteLE seq.notes).mem_iff.mp hn)
  have hlen' : (List.insertionSort noteLE seq.notes).length = N := by
    rw [(List.perm_insertionSort noteLE seq.notes).length_eq, hlen]
  have hne' : (List.insertionSort noteLE seq.notes).isEmpty = false := by
    cases hnn : List.insertionSort noteLE seq.notes
    · rw [hnn] at hlen'
      simp at hlen'
      omega
    · simp
  have happ := calcMaxLoop_const s e hse (List.insertionSort noteLE seq.notes) 0 1 hall'
  simp only [List.replicate_zero] at happ
  rw [happ, hne', hlen']
  simp only [Bool.false_eq_true, if_false, Nat.zero_add]
  omega

theorem calc_max_all_same_interval_witness :
    (Sequence.calc_max_notes_at_once
        { notes := [{ start_at := 0, end_at := 1, duration := 1, frequency_id := 0,
                      on_velocity := 1, off_velocity := 0, instrument_id := 0 },
                    { start_at := 0, end_at := 1, duration := 1, frequency_id := 5,
                      on_velocity := 1, off_velocity := 0, instrument_id := 1 }],
          loop_info := none }).1 = 2 :=
  calc_max_all_same_interval _ 2 0 1 (by norm_num) (by simp) (by norm_num)
    (by intro n hn; simp at hn; rcases hn with h | h <;> simp [h])

theorem le_calcMaxLoop (l : List Note) : ∀ (m : Nat) (prev : List (ℚ × ℚ)),
    m ≤ calcMaxLoop l m prev := by
  induction l with
  | nil =>
    intro m prev
    simp [calcMaxLoop]
  | cons n rest ih =>
    intro m prev
    rw [calcMaxLoop]
    exact le_trans (le_max_left _ _) (ih _ _)

theorem calc_max_pos (seq : Sequence) (h : seq.notes ≠ []) :
    1 ≤ (seq.calc_max_notes_at_once).1 := by
  have hb : seq.notes.isEmpty = false := by
    cases hnn : seq.notes
    · exact absurd hnn h
    · simp
  simp only [Sequence.calc_max_notes_at_once, hb, Bool.false_eq_true, if_false,
    Sequence.sort_by_time]
  exact le_calcMaxLoop _ _ _

theorem gen_keys_preserves_sequence (ms ms1 : MusicSequencer)
    (h : ms.gen_instrument_keys = .ok ms1) : ms1.sequence = ms.sequence := by
  unfold MusicSequencer.gen_instrument_keys at h
  split at h
  · exact Res.noConfusion h
  · exact Res.noConfusion h
  · injection h with h
    subst h
    rfl

theorem filter_orderedInsert_start_eq (q : ℚ) (a : Note) (l : List Note) (ha : a.start_at = q) :
    (List.orderedInsert noteLE a l).filter (fun n => decide (n.start_at = q))
      = a :: l.filter (fun n => decide (n.start_at = q)) := by
  induction l with
  | nil => simp [List.orderedInsert, ha]
  | cons b l ih =>
    rw [List.orderedInsert]
    by_cases hle : noteLE a b
    · rw [if_pos hle, List.filter_cons, if_pos (by simpa using ha)]
    · rw [if_neg hle]
      have hbq : ¬ b.start_at = q := by
        rw [noteLE] at hle
        push_neg at hle
        rw [← ha]
        exact ne_of_lt hle
      rw [List.filter_cons, if_neg (by simpa using hbq), ih,
        List.filter_cons, if_neg (by simpa using hbq)]

theorem filter_orderedInsert_start_ne (q : ℚ) (a : Note) (l : List Note) (ha : ¬ a.start_at = q) :
    (List.orderedInsert noteLE a l).filter (fun n => decide (n.start_at = q))
      = l.filter (fun n => decide (n.start_at = q)) := by
  induction l with
  | nil => simp [List.orderedInsert, ha]
  | cons b l ih =>
    rw [List.orderedInsert]
    by_cases hle : noteLE a b
    · rw [if_pos hle, List.filter_cons, if_neg (by simpa using ha)]
    · rw [if_neg hle, List.filter_cons, ih, List.filter_cons]

theorem filter_insertionSort_start (q : ℚ) (l : List Note) :
    (List.insertionSort noteLE l).filter (fun n => decide (n.start_at = q))
      = l.filter (fun n => decide (n.start_at = q)) := by
  induction l with
  | nil => rfl
  | cons a l ih =>
    rw [List.insertionSort]
    by_cases ha : a.start_at = q
    · rw [filter_orderedInsert_start_eq q a _ ha, ih, List.filter_cons,
        if_pos (by simpa using ha)]
    · rw [filter_orderedInsert_start_ne q a _ ha, ih, List.filter_cons,
        if_neg (by simpa using ha)]

/-- C10: calc_max_notes_at_once mutates the sequence it analyzes: for a
non-empty sequence (start times are exact rationals here, so NaN-free),
after the call the stored note list is the stable ascending sort of the
original notes by start_at — a permutation of the original notes, sorted
by start_at, in which notes with equal start times keep their original
relative order — and the loop_info field, the only other field of the
sequence, is unmodified. -/
theorem calc_max_notes_sorts_sequence (seq : Sequence) (hne : seq.notes ≠ []) :
    (seq.calc_max_notes_at_once).2.notes.Perm seq.notes ∧
    List.Sorted noteLE (seq.calc_max_notes_at_once).2.notes ∧
    (∀ q : ℚ, (seq.calc_max_notes_at_once).2.notes.filter (fun n => decide (n.start_at = q))
      = seq.notes.filter (fun n => decide (n.start_at = q))) ∧
    (seq.calc_max_notes_at_once).2.loop_info = seq.loop_info := by
  have hb : seq.notes.isEmpty = false := by
    cases hnn : seq.notes
    · exact absurd hnn hne
    · simp
  simp only [Sequence.calc_max_notes_at_once, hb, Bool.false_eq_true, if_false,
    Sequence.sort_by_time]
  exact ⟨List.perm_insertionSort _ _, List.sorted_insertionSort _ _,
    fun q => filter_insertionSort_start q _, trivial⟩

theorem calc_max_notes_sorts_sequence_witness :
    ((Sequence.calc_max_notes_at_once
        { notes := [{ start_at := 2, end_at := 3, duration := 1, frequency_id := 0,
                      on_velocity := 1, off_velocity := 0, instrument_id := 0 },
                    { start_at := 1, end_at := 2, duration := 1, frequency_id := 1,
                      on_velocity := 1, off_velocity := 0, instrument_id := 0 }],
          loop_info := none }).2.notes.Perm
      [{ start_at := 2, end_at := 3, duration := 1, frequency_id := 0,
         on_velocity := 1, off_velocity := 0, instrument_id := 0 },
       { start_at := 1, end_at := 2, duration := 1, frequency_id := 1,
         on_velocity := 1, off_velocity := 0, instrument_id := 0 }]) ∧
    List.Sorted noteLE
      (Sequence.calc_max_notes_at_once
        { notes := [{ start_at := 2, end_at := 3, duration := 1, frequency_id := 0,
                      on_velocity := 1, off_velocity := 0, instrument_id := 0 },
                    { start_at := 1, end_at := 2, duration := 1, frequency_id := 1,
                      on_velocity := 1, off_velocity := 0, instrument_id := 0 }],
          loop_info := none }).2.notes ∧
    (∀ q : ℚ, ((Sequence.calc_max_notes_at_once
        { notes := [{ start_at := 2, end_at := 3, duration := 1, frequency_id := 0,
                      on_velocity := 1, off_velocity := 0, instrument_id := 0 },
                    { start_at := 1, end_at := 2, duration := 1, frequency_id := 1,
                      on_velocity := 1, off_velocity := 0, instrument_id := 0 }],
          loop_info := none }).2.notes.filter (fun n => decide (n.start_at = q))
      = [{ start_at := 2, end_at := 3, duration := 1, frequency_id := 0,
           on_velocity := 1, off_velocity := 0, instrument_id := 0 },
         { start_at := 1, end_at := 2, duration := 1, frequency_id := 1,
           on_velocity := 1, off_velocity := 0, instrument_id := 0 }].filter
          (fun n => decide (n.start_at = q)))) ∧
    (Sequence.calc_max_notes_at_once
        { notes := [{ start_at := 2, end_at := 3, duration := 1, frequency_id := 0,
                      on_velocity := 1, off_velocity := 0, instrument_id := 0 },
                    { start_at := 1, end_at := 2, duration := 1, frequency_id := 1,
                      on_velocity := 1, off_velocity := 0, instrument_id := 0 }],
          loop_info := none }).2.loop_info = none :=
  calc_max_notes_sorts_sequence
    { notes := [{ start_at := 2, end_at := 3, duration := 1, frequency_id := 0,
                  on_velocity := 1, off_velocity := 0, instrument_id := 0 },
                { start_at := 1, end_at := 2, duration := 1, frequency_id := 1,
                  on_velocity := 1, off_velocity := 0, instrument_id := 0 }],
      loop_info := none } (by simp)


/-- C2 amended: for every sequencer whose maximum simultaneous-note
count is below 65536 (the source truncates the count through a
usize → u16 cast before taking the reciprocal), render mixes with the
global amplitude divisor 1 / max(1, calc_max_notes_at_once()) — for a
non-empty sequence the count is at least 1 so the truncated reciprocal
agrees with the spec's formula, and for an empty sequence no note is
mixed and the divisor is unused — and the mixing step accumulates each
sample of every note's generated sound into the output scaled by exactly
amplitude_divisor * on_velocity. -/
theorem render_uses_spec_divisor (ms : MusicSequencer)
    (hsmall : (ms.sequence.calc_max_notes_at_once).1 < 65536) :
    ms.render = ms.renderSpecDivisor ∧
    (∀ amp vel : ℚ, ∀ ch : Nat, ∀ outs adds res : List Sample,
      mixChannels amp vel ch outs adds = some res →
      ∀ i, i < ch → ∀ q1 q2 : ℚ,
        outs.getD i .Unsupported = .Float q1 →
        adds.getD i .Unsupported = .Float q2 →
        res.getD i .Unsupported = .Float (q1 + q2 * amp * vel)) := by
  constructor
  · rw [MusicSequencer.render, MusicSequencer.renderSpecDivisor]
    cases hgen : ms.gen_instrument_keys with
    | error e => rfl
    | panic => rfl
    | ok ms1 =>
      have hseq : ms1.sequence = ms.sequence := gen_keys_preserves_sequence ms ms1 hgen
      dsimp only
      rw [hseq]
      by_cases hempty : ms.sequence.notes = []
      · rw [show ms.sequence.calc_max_notes_at_once = (0, ms.sequence) from by
          simp [Sequence.calc_max_notes_at_once, hempty]]
        simp only [renderMix, hempty, mixNotes]
      · have hge : 1 ≤ (ms.sequence.calc_max_notes_at_once).1 := calc_max_pos _ hempty
        rw [Nat.mod_eq_of_lt hsmall, Nat.max_eq_right hge]
  · intro amp vel ch
    induction ch with
    | zero =>
      intro outs adds res h i hi
      omega
    | succ ch ih =>
      intro outs adds res h i hi q1 q2 hq1 hq2
      cases outs with
      | nil => simp [mixChannels] at h
      | cons s1 outs' =>
        cases adds with
        | nil => simp [mixChannels] at h
        | cons s2 adds' =>
          cases s1 with
          | Unsupported => simp [mixChannels] at h
          | Float v1 =>
            cases s2 with
            | Unsupported => simp [mixChannels] at h
            | Float v2 =>
              rw [mixChannels] at h
              cases hrec : mixChannels amp vel ch outs' adds' with
              | none =>
                rw [hrec] at h
                exact Option.noConfusion h
              | some rest =>
                rw [hrec] at h
                injection h with h
                subst h
                cases i with
                | zero =>
                  simp only [List.getD_cons_zero] at hq1 hq2 ⊢
                  injection hq1 with hq1
                  injection hq2 with hq2
                  rw [hq1, hq2]
                | succ j =>
                  simp only [List.getD_cons_succ] at hq1 hq2 ⊢
                  exact ih outs' adds' rest hrec j (by omega) q1 q2 hq1 hq2

theorem render_uses_spec_divisor_witness :
    (MusicSequencer.render
        { pcm_parameters := { nb_channels := 1, sample_rate := 1, sample_type := .Float 0 },
          sequence := { notes := [], loop_info := none },
          instruments := { instruments := [] },
          frequency_lut := { lut := [] } }
      = MusicSequencer.renderSpecDivisor
        { pcm_parameters := { nb_channels := 1, sample_rate := 1, sample_type := .Float 0 },
          sequence := { notes := [], loop_info := none },
          instruments := { instruments := [] },
          frequency_lut := { lut := [] } }) ∧
    (∀ amp vel : ℚ, ∀ ch : Nat, ∀ outs adds res : List Sample,
      mixChannels amp vel ch outs adds = some res →
      ∀ i, i < ch → ∀ q1 q2 : ℚ,
        outs.getD i .Unsupported = .Float q1 →
        adds.getD i .Unsupported = .Float q2 →
        res.getD i .Unsupported = .Float (q1 + q2 * amp * vel)) :=
  render_uses_spec_divisor
    { pcm_parameters := { nb_channels := 1, sample_rate := 1, sample_type := .Float 0 },
      sequence := { notes := [], loop_info := none },
      instruments := { instruments := [] },
      frequency_lut := { lut := [] } }
    (by norm_num [Sequence.calc_max_notes_at_once])

theorem addNoteFreq_ce_fix : addNoteFreq [(0, [(0, (1:ℚ))])] ceNote = [(0, [(0, (1:ℚ))])] := by
  norm_num [addNoteFreq, updateFreqTimes, ceNote]

theorem foldl_addNoteFreq_ce (k : Nat) :
    List.foldl addNoteFreq [(0, [(0, (1:ℚ))])] (List.replicate k ceNote)
      = [(0, [(0, (1:ℚ))])] := by
  induction k with
  | zero => rfl
  | succ k ih => rw [List.replicate_succ, List.foldl_cons, addNoteFreq_ce_fix, ih]

theorem ce_freq_map : ceSeq.list_frequencies_for_instruments = [(0, [(0, (1:ℚ))])] := by
  rw [Sequence.list_frequencies_for_instruments]
  show List.foldl addNoteFreq [] (List.replicate 65536 ceNote) = _
  rw [show (65536 : Nat) = 65535 + 1 from rfl, List.replicate_succ, List.foldl_cons]
  rw [show addNoteFreq [] ceNote = [(0, [(0, (1:ℚ))])] from by norm_num [addNoteFreq, ceNote]]
  exact foldl_addNoteFreq_ce 65535

theorem gen_instrument_keys_eq_of (ms : MusicSequencer) (fm : List (Nat × List (Nat × ℚ)))
    (table' : InstrumentTable)
    (hfm : ms.sequence.list_frequencies_for_instruments = fm)
    (hloop : genInstrumentKeysLoop ms.frequency_lut
      { nb_channels := ms.pcm_parameters.nb_channels,
        sample_rate := ms.pcm_parameters.sample_rate,
        sample_type := Sample.Float 0 } fm ms.instruments = .ok table') :
    ms.gen_instrument_keys = .ok { ms with instruments := table' } := by
  unfold MusicSequencer.gen_instrument_keys
  rw [hfm, hloop]

theorem ce_gen_instrument_keys : ceMS.gen_instrument_keys = .ok ceMS1 :=
  gen_instrument_keys_eq_of ceMS [(0, [(0, (1:ℚ))])]
    (InstrumentTable.mk [(0, ceInstrumentGen)]) ce_freq_map rfl

theorem orderedInsert_ceNote_replicate (k : Nat) :
    List.orderedInsert noteLE ceNote (List.replicate k ceNote)
      = List.replicate (k + 1) ceNote := by
  cases k with
  | zero => rfl
  | succ k =>
    rw [List.replicate_succ, List.orderedInsert,
      if_pos (show noteLE ceNote ceNote from le_refl _)]
    rfl

theorem insertionSort_ce (k : Nat) :
    List.insertionSort noteLE (List.replicate k ceNote) = List.replicate k ceNote := by
  induction k with
  | zero => rfl
  | succ k ih =>
    rw [List.replicate_succ, List.insertionSort, ih, orderedInsert_ceNote_replicate,
      List.replicate_succ]

theorem ce_calc_max_general (k : Nat) :
    (Sequence.mk (List.replicate (k + 1) ceNote) none).calc_max_notes_at_once
      = (k + 1, Sequence.mk (List.replicate (k + 1) ceNote) none) := by
  have hb : (List.replicate (k + 1) ceNote).isEmpty = false := by
    rw [List.replicate_succ]
    rfl
  simp only [Sequence.calc_max_notes_at_once, hb, Bool.false_eq_true, if_false,
    Sequence.sort_by_time]
  rw [insertionSort_ce]
  rw [Prod.mk.injEq]
  refine ⟨?_, rfl⟩
  have h := calcMaxLoop_const 0 1 (by norm_num) (List.replicate (k + 1) ceNote) 0 1
    (fun n hn => by rw [List.eq_of_mem_replicate hn]; exact ⟨rfl, rfl⟩)
  simp only [List.replicate_zero] at h
  rw [h, hb]
  simp only [Bool.false_eq_true, if_false, List.length_replicate, Nat.zero_add]
  omega

theorem ce_calc_max : ceSeq.calc_max_notes_at_once = (65536, ceSeq) :=
  ce_calc_max_general 65535

theorem foldl_duration_ce (k : Nat) :
    List.foldl (fun duration note => if note.end_at > duration then note.end_at else duration)
      1 (List.replicate k ceNote) = 1 := by
  induction k with
  | zero => rfl
  | succ k ih =>
    rw [List.replicate_succ, List.foldl_cons]
    rw [show (if ceNote.end_at > (1:ℚ) then ceNote.end_at else (1:ℚ)) = 1 from by
      norm_num [ceNote]]
    exact ih

theorem ce_duration : ceSeq.calc_music_duration = 1 := by
  rw [Sequence.calc_music_duration]
  show List.foldl (fun duration note => if note.end_at > duration then note.end_at else duration)
    0 (List.replicate 65536 ceNote) = 1
  rw [show (65536 : Nat) = 65535 + 1 from rfl, List.replicate_succ, List.foldl_cons]
  rw [show (if ceNote.end_at > (0:ℚ) then ceNote.end_at else (0:ℚ)) = 1 from by
    norm_num [ceNote]]
  exact foldl_duration_ce 65535

theorem ce_gen_sound :
    ceInstrumentGen.gen_sound 0 1 =
      .ok { parameters := { nb_channels := 1, sample_rate := 1, sample_type := .Float 0 },
            loop_info := none, frames := [{ samples := [Sample.Float 1] }] } := by
  rw [gen_sound_nonloop_eq ceInstrumentGen 0 1 ceKey rfl rfl (by decide) (by norm_num)]
  rw [rustAsUsize_eq_of_eq_natCast _ 1 (by norm_num [ceKey])]
  rfl

theorem ce_round_zero : rustRoundToNat (ceNote.start_at * ((1:Nat) : ℚ)) = 0 := by
  rw [rustRoundToNat, rustRound, if_pos (by norm_num [ceNote])]
  rw [show ceNote.start_at * ((1:Nat) : ℚ) + 1/2 = 1/2 from by norm_num [ceNote]]
  rw [show ⌊(1:ℚ)/2⌋ = 0 from by rw [Int.floor_eq_iff] <;> norm_num]
  rfl

theorem ce_mix_frames (amp v : ℚ) :
    mixFrames amp ceNote.on_velocity 1 [{ samples := [Sample.Float 1] }]
        (rustRoundToNat (ceNote.start_at * ((1:Nat) : ℚ))) [{ samples := [Sample.Float v] }]
      = some [{ samples := [Sample.Float (v + amp)] }] := by
  rw [ce_round_zero]
  rw [show ceNote.on_velocity = 1 from rfl]
  simp only [mixFrames, mixChannels, List.getD_cons_zero, List.length_cons, List.length_nil,
    Nat.zero_lt_succ, if_pos, List.set]
  rw [show v + 1 * amp * 1 = v + amp from by ring]

theorem ce_mix_note (amp v : ℚ) (rest : List Note) :
    mixNotes { instruments := [(0, ceInstrumentGen)] } amp 1 1 (ceNote :: rest)
        [{ samples := [Sample.Float v] }]
      = mixNotes { instruments := [(0, ceInstrumentGen)] } amp 1 1 rest
        [{ samples := [Sample.Float (v + amp)] }] := by
  simp only [mixNotes]
  rw [show InstrumentTable.get { instruments := [(0, ceInstrumentGen)] } ceNote.instrument_id
    = .ok ceInstrumentGen from rfl]
  dsimp only
  rw [show ceNote.frequency_id = 0 from rfl, show ceNote.duration = 1 from rfl, ce_gen_sound]
  dsimp only
  rw [ce_mix_frames amp v]

theorem ce_mix_notes (k : Nat) : ∀ (amp v : ℚ),
    mixNotes { instruments := [(0, ceInstrumentGen)] } amp 1 1 (List.replicate k ceNote)
        [{ samples := [Sample.Float v] }]
      = .ok [{ samples := [Sample.Float (v + (k : ℚ) * amp)] }] := by
  induction k with
  | zero =>
    intro amp v
    rw [show v + ((0:Nat) : ℚ) * amp = v from by push_cast; ring]
    rfl
  | succ k ih =>
    intro amp v
    rw [List.replicate_succ, ce_mix_note, ih]
    rw [show v + amp + (k : ℚ) * amp = v + ((k + 1 : Nat) : ℚ) * amp from by push_cast; ring]

theorem renderMix_eq_of (ms : MusicSequencer) (amp d : ℚ) (nf : Nat) (out : List Frame)
    (hd : ms.sequence.calc_music_duration = d)
    (hnf : rustAsUsize (d * (ms.pcm_parameters.sample_rate : ℚ)) = nf)
    (hmix : mixNotes ms.instruments amp ms.pcm_parameters.sample_rate
      ms.pcm_parameters.nb_channels ms.sequence.notes
      (List.replicate nf
        { samples := List.replicate ms.pcm_parameters.nb_channels (Sample.Float 0) })
      = .ok out) :
    renderMix ms amp =
      .ok { parameters :=
              { nb_channels := ms.pcm_parameters.nb_channels,
                sample_rate := ms.pcm_parameters.sample_rate,
                sample_type := Sample.Float 0 },
            loop_info := none, frames := out } := by
  rw [renderMix]
  rw [hd, hnf, hmix]

theorem ce_renderMix (amp : ℚ) :
    renderMix ceMS1 amp =
      .ok { parameters := { nb_channels := 1, sample_rate := 1, sample_type := .Float 0 },
            loop_info := none,
            frames := [{ samples := [Sample.Float (0 + ((65536:Nat) : ℚ) * amp)] }] } :=
  renderMix_eq_of ceMS1 amp 1 1 [{ samples := [Sample.Float (0 + ((65536:Nat) : ℚ) * amp)] }]
    ce_duration
    (by
      show rustAsUsize (1 * ((1:Nat) : ℚ)) = 1
      exact rustAsUsize_eq_of_eq_natCast _ 1 (by norm_num))
    (by
      show mixNotes { instruments := [(0, ceInstrumentGen)] } amp 1 1
        (List.replicate 65536 ceNote) [{ samples := [Sample.Float 0] }] = _
      exact ce_mix_notes 65536 amp 0)

theorem render_eq_of (ms ms1 : MusicSequencer) (n : Nat) (seq' : Sequence)
    (hgen : ms.gen_instrument_keys = .ok ms1)
    (hmax : ms1.sequence.calc_max_notes_at_once = (n, seq')) :
    ms.render = renderMix { ms1 with sequence := seq' } (((n % 65536 : Nat) : ℚ))⁻¹ := by
  rw [MusicSequencer.render, hgen]
  dsimp only
  rw [hmax]

theorem renderSpecDivisor_eq_of (ms ms1 : MusicSequencer) (n : Nat) (seq' : Sequence)
    (hgen : ms.gen_instrument_keys = .ok ms1)
    (hmax : ms1.sequence.calc_max_notes_at_once = (n, seq')) :
    ms.renderSpecDivisor = renderMix { ms1 with sequence := seq' } (((max 1 n : Nat) : ℚ))⁻¹ := by
  rw [MusicSequencer.renderSpecDivisor, hgen]
  dsimp only
  rw [hmax]

theorem ce_render_eval :
    ceMS.render =
      .ok { parameters := { nb_channels := 1, sample_rate := 1, sample_type := .Float 0 },
            loop_info := none,
            frames := [{ samples := [Sample.Float
              (0 + ((65536:Nat) : ℚ) * (((65536 % 65536 : Nat) : ℚ))⁻¹)] }] } :=
  (render_eq_of ceMS ceMS1 65536 ceSeq ce_gen_instrument_keys ce_calc_max).trans
    (ce_renderMix (((65536 % 65536 : Nat) : ℚ))⁻¹)

theorem ce_renderSpec_eval :
    ceMS.renderSpecDivisor =
      .ok { parameters := { nb_channels := 1, sample_rate := 1, sample_type := .Float 0 },
            loop_info := none,
            frames := [{ samples := [Sample.Float
              (0 + ((65536:Nat) : ℚ) * (((max 1 65536 : Nat) : ℚ))⁻¹)] }] } :=
  (renderSpecDivisor_eq_of ceMS ceMS1 65536 ceSeq ce_gen_instrument_keys ce_calc_max).trans
    (ce_renderMix (((max 1 65536 : Nat) : ℚ))⁻¹)

/-- C2 as stated is false: render's amplitude divisor is
f32::from(max_notes_at_once as u16).recip(), and the usize → u16 cast
truncates the concurrency count mod 65536 before the reciprocal, so it
is not 1 / max(1, calc_max_notes_at_once()) for every sequence.  For a
sequencer with 65536 fully simultaneous unit notes, the spec's divisor
1/65536 mixes the unit samples to exactly 1.0, while the code's divisor
is the reciprocal of 65536 % 65536 = 0 (an f32 infinity, exact 0 in this
rational model), so the rendered buffers differ. -/
theorem render_divisor_counterexample : ceMS.render ≠ ceMS.renderSpecDivisor := by
  rw [ce_render_eval, ce_renderSpec_eval,
    show (65536 % 65536 : Nat) = 0 from rfl, show (max 1 65536 : Nat) = 65536 from rfl]
  intro h
  injection h with h
  simp only [PCM.mk.injEq, List.cons.injEq, Frame.mk.injEq, Sample.Float.injEq, and_true,
    true_and] at h
  norm_num at h
